import Mathlib

/-!
Verification of the vehicle-claims console core (`src/app.py`).

The development shallowly embeds the orchestration core of the application:
the text-generation client wrapper `call_groq`, the five agent functions,
the pipeline `run_claim_pipeline_groq`, the priority extractor
`extract_priority_label`, the in-memory claim record store kept in
`st.session_state` (`claims_db`, `next_idx`) together with its operations
(`save_claim_record`, `get_sorted_claims`, the delete action of
`render_history`, the status mutation of `render_claim_intelligence`),
and the submission flow of `main`.

Modelling conventions:
* The external Groq SDK call is abstracted as a `Client` function from the
  two prompts and the sampling temperature to either a `ServiceError`
  (any exception raised by the SDK, including a missing `choices[0]`) or a
  `MsgContent` describing the `message.content` attribute of the response.
* Python dicts are insertion-ordered; `claims_db` is embedded as an
  association list where assignment to an existing key replaces the value
  in place and assignment to a fresh key appends.
* `datetime.now()` is embedded as an explicit `now : Nat` argument taken at
  record creation.
* Python's `sorted(xs, key=..., reverse=True)` is a stable descending
  sort; it is embedded as the stable descending insertion sort
  `sortByIdxDesc`, which agrees with every stable descending sort.
* Python's `str.strip()` is embedded as `String.trim`, `str.lower()` as a
  character-wise lowercasing, and the substring test `in` as
  `containsSub`.
-/

/-- An error raised by the external model SDK (message text of the
exception). -/
abbrev ServiceError := String

/-- Embedding of Python's `str.strip()`: drop whitespace characters from
both ends. -/
def pyStrip (s : String) : String :=
  ⟨((s.data.dropWhile Char.isWhitespace).reverse.dropWhile
      Char.isWhitespace).reverse⟩

/-- Shape of the `message.content` attribute of a successful chat
completion, as inspected by `call_groq`: a plain string, a list of parts
each with an optional `text` attribute (absent modelled as `""`), a missing
`content` attribute (the `getattr` default `""`), or a Python `None`
(`str(None)` is `"None"`). -/
inductive MsgContent where
  | text (s : String)
  | parts (ps : List String)
  | missing
  | pynone
deriving DecidableEq

/-- The external text-generation client: system prompt, user prompt and
temperature to either a raised error or the response message content. -/
abbrev Client := String → String → Rat → Except ServiceError MsgContent

/-- Embedding of `call_groq` (src/app.py lines 29-47): issue the chat
completion and normalise `message.content` to a stripped string. A list
content joins the non-empty part texts. Errors of the client propagate. -/
def call_groq (client : Client) (system_prompt user_prompt : String)
    (temperature : Rat) : Except ServiceError String :=
  match client system_prompt user_prompt temperature with
  | Except.error e => Except.error e
  | Except.ok (MsgContent.text s) => Except.ok (pyStrip s)
  | Except.ok (MsgContent.parts ps) =>
      Except.ok (pyStrip (String.join (ps.filter (fun t => t ≠ ""))))
  | Except.ok MsgContent.missing => Except.ok ""
  | Except.ok MsgContent.pynone => Except.ok "None"

/-- Embedding of `triage_agent_groq` (lines 54-73). -/
def triage_agent_groq (client : Client) (claim_type description : String) :
    Except ServiceError String :=
  call_groq client "You are a precise vehicle insurance triage engine."
    ("\nYou will triage a motor insurance claim.\n\nClaim type: " ++ claim_type ++
      "\nCustomer incident description:\n\"\"\"" ++ description ++
      "\"\"\"\n\nTasks:\n1. Classify:\n   - severity: one of [\"Low\", \"Medium\", \"High\"]\n   - priority: one of [\"P1 – Urgent\", \"P2 – Standard\", \"P3 – Low\"]\n   - expected_cycle_time: short phrase (e.g. \"1–2 days\", \"3–5 days\").\n\n2. Explain your reasoning in 2–3 lines, in simple language.\n\nReturn the answer as concise markdown bullet points.\n")
    ((3 : Rat) / 10)

/-- Embedding of `damage_agent_groq` (lines 76-103). -/
def damage_agent_groq (client : Client)
    (claim_type car_model description : String) (has_photos : Bool) :
    Except ServiceError String :=
  call_groq client "You are an auto damage estimator for Indian private passenger vehicles."
    ("\nEstimate likely vehicle damage for this claim.\n\nClaim type: " ++ claim_type ++
      "\nCar make & model (with year if given): " ++ car_model ++
      "\nPhotos attached: " ++ (if has_photos then "Yes" else "No") ++
      "\nCustomer description:\n\"\"\"" ++ description ++
      "\"\"\"\n\nInstructions:\n- Consider that repair costs vary by segment:\n  - Entry/budget cars (e.g. Alto, WagonR, Tiago) → cheaper parts & labour\n  - Mid-range (e.g. Baleno, i20, City) → moderate\n  - Premium/luxury (e.g. BMW, Mercedes, Audi) → high repair cost\n- Use this to pick a realistic repair cost band.\n\nReturn:\n- likely damaged parts\n- type of damage (scratches, dents, broken components, glass damage, etc.)\n- rough repair cost range in INR (e.g. \"₹10,000–₹15,000\")\n- damage category: one of [\"Minor\", \"Moderate\", \"Severe\"]\n- short notes (mention if photos would help confirm or refine estimate).\n\nReturn a short structured markdown answer.\n")
    ((3 : Rat) / 10)

/-- Embedding of `evidence_agent_groq` (lines 106-129). -/
def evidence_agent_groq (client : Client) (description : String)
    (has_photos : Bool) : Except ServiceError String :=
  call_groq client "You are an insurance claims evidence and documentation assistant."
    ("\nYou will help a claims adjuster quickly understand the case and decide what to ask the customer.\n\nCustomer\x27s description of the accident:\n\"\"\"" ++ description ++
      "\"\"\"\n\nCustomer has already attached some photos: " ++
      (if has_photos then "Yes" else "No") ++
      "\n\nReturn:\n1. A 3–4 line summary suitable for an internal adjuster.\n2. A bullet list of MOST important missing information / documents to request next, such as:\n   - more photos (mention which angles if needed)\n   - police report / FIR / challan\n   - workshop estimate\n   - injury details\n   - any other key info.\n\nReturn in markdown with headings:\n- Summary\n- Missing information / documents\n")
    ((3 : Rat) / 10)

/-- Embedding of `settlement_agent_groq` (lines 132-159). -/
def settlement_agent_groq (client : Client)
    (claim_type car_model description : String) : Except ServiceError String :=
  call_groq client "You are a senior, fair motor insurance claims adjuster in India."
    ("\nYou must suggest an initial settlement approach for this motor claim.\n\nClaim type: " ++ claim_type ++
      "\nCar make & model: " ++ car_model ++
      "\nCustomer description:\n\"\"\"" ++ description ++
      "\"\"\"\n\nAssume:\n- Private car comprehensive policy\n- Usual deductibles apply\n- Standard Indian repair market\n\nConsider car segment:\n- For budget cars, typical repairs are cheaper.\n- For premium/luxury cars, parts & labour are significantly more expensive.\n\nReturn:\n- Is this suitable for fast-track / straight-through processing? (yes/no + why)\n- A reasonable settlement RANGE in INR (e.g. \"₹15,000–₹20,000\")\n- 2–3 key decision factors you used\n- Any risks or caveats (e.g. missing documents, unclear liability, potential fraud).\n\nReturn in clear markdown bullet points, no legal jargon.\n")
    ((3 : Rat) / 10)

/-- Embedding of `customer_message_agent_groq` (lines 162-185). -/
def customer_message_agent_groq (client : Client)
    (claim_id description evidence_markdown : String) :
    Except ServiceError String :=
  call_groq client "You draft short, polite messages for insurance policyholders."
    ("\nYou are helping a motor insurance company talk to a customer.\n\nClaim ID: " ++ claim_id ++
      "\n\nCustomer\x27s original description of the accident:\n\"\"\"" ++ description ++
      "\"\"\"\n\nInternal notes from the Evidence Agent (includes missing information section):\n\"\"\"" ++ evidence_markdown ++
      "\"\"\"\n\nWrite a short message that:\n- thanks the customer\n- clearly lists what documents/photos/details they need to share\n- is in simple, friendly English\n- is suitable for WhatsApp or email\n- is under 120 words.\n\nDo NOT include headings or technical language.\nOnly return the message body.\n")
    ((3 : Rat) / 10)

/-- Character-wise lowercasing, embedding Python's `str.lower()` as used on
the triage text. -/
def strLower (s : String) : String := ⟨s.data.map Char.toLower⟩

/-- Substring test, embedding Python's `pat in haystack`. -/
def containsSub (haystack pat : String) : Bool :=
  decide (pat.data <:+: haystack.data)

/-- Embedding of `extract_priority_label` (lines 192-200): lowercase the
triage markdown, then scan for "high", "medium", "low" in that order;
first match wins, no match gives "UNSPECIFIED". -/
def extract_priority_label (triage_md : String) : String :=
  let txt := strLower triage_md
  if containsSub txt "high" then "HIGH"
  else if containsSub txt "medium" then "MEDIUM"
  else if containsSub txt "low" then "LOW"
  else "UNSPECIFIED"

/-- The `overview` sub-dict assembled by the pipeline (lines 216-222). -/
structure Overview where
  claim_id : String
  claim_type : String
  channel : String
  car_model : String
  has_photos : Bool
deriving DecidableEq

/-- The dict returned by `run_claim_pipeline_groq` (lines 224-230). -/
structure PipelineResult where
  overview : Overview
  triage : String
  damage : String
  evidence : String
  settlement : String
deriving DecidableEq

/-- Embedding of `run_claim_pipeline_groq` (lines 203-230): run the four
agents in order; any raised client error aborts the run and propagates
unchanged; otherwise bundle the four texts with the overview. -/
def run_claim_pipeline_groq (client : Client)
    (claim_id claim_type channel car_model description : String)
    (has_photos : Bool) : Except ServiceError PipelineResult :=
  match triage_agent_groq client claim_type description with
  | Except.error e => Except.error e
  | Except.ok triage =>
    match damage_agent_groq client claim_type car_model description
        has_photos with
    | Except.error e => Except.error e
    | Except.ok damage =>
      match evidence_agent_groq client description has_photos with
      | Except.error e => Except.error e
      | Except.ok evidence =>
        match settlement_agent_groq client claim_type car_model
            description with
        | Except.error e => Except.error e
        | Except.ok settlement =>
          Except.ok
            { overview := { claim_id := claim_id, claim_type := claim_type,
                            channel := channel, car_model := car_model,
                            has_photos := has_photos },
              triage := triage, damage := damage, evidence := evidence,
              settlement := settlement }

/-- A stored claim record: the dict written by `save_claim_record`
(lines 261-278). `created_at` is the `datetime.now()` tick. -/
structure ClaimRecord where
  id : String
  customer_name : String
  customer_contact : String
  type : String
  channel : String
  car_model : String
  description : String
  status : String
  priority : String
  triage : String
  damage : String
  evidence : String
  settlement : String
  overview : Overview
  created_at : Nat
  created_idx : Nat
deriving DecidableEq

/-- The mutable session state touched by the core (`init_state`,
lines 233-243): the claim dict, the running creation counter, and the
UI pointers that the store operations also reset. -/
structure AppState where
  claims_db : List (String × ClaimRecord)
  next_idx : Nat
  active_claim_id : Option String
  customer_msg : String
  send_status : String
deriving DecidableEq

/-- Embedding of `init_state` (lines 233-243). -/
def init_state : AppState :=
  { claims_db := [], next_idx := 0, active_claim_id := none,
    customer_msg := "", send_status := "" }

/-- Python dict assignment `db[k] = v`: replace in place when the key is
present (keeping its position), append otherwise. -/
def dictSet (db : List (String × ClaimRecord)) (k : String)
    (v : ClaimRecord) : List (String × ClaimRecord) :=
  if db.any (fun p => p.1 == k) then
    db.map (fun p => if p.1 == k then (k, v) else p)
  else db ++ [(k, v)]

/-- Python dict read `db[k]` (first entry with the key, as an option). -/
def dictGet (db : List (String × ClaimRecord)) (k : String) :
    Option ClaimRecord :=
  (db.find? (fun p => p.1 == k)).map Prod.snd

/-- Embedding of `save_claim_record` (lines 246-278): bump the counter,
derive the priority from the triage text, and write the record under
`claim_id`. The `status` argument defaults to "Reviewing" in the source;
callers here pass it explicitly. -/
def save_claim_record (s : AppState)
    (claim_id customer_name customer_contact claim_type channel car_model
      description : String) (pipeline_result : PipelineResult)
    (status : String) (now : Nat) : AppState :=
  let next := s.next_idx + 1
  let triage_md := pipeline_result.triage
  let priority := extract_priority_label triage_md
  { s with
    next_idx := next,
    claims_db := dictSet s.claims_db claim_id
      { id := claim_id
        customer_name := customer_name
        customer_contact := customer_contact
        type := claim_type
        channel := channel
        car_model := car_model
        description := description
        status := status
        priority := priority
        triage := triage_md
        damage := pipeline_result.damage
        evidence := pipeline_result.evidence
        settlement := pipeline_result.settlement
        overview := pipeline_result.overview
        created_at := now
        created_idx := next } }

/-- Stable insertion of a record into a list already sorted by
`created_idx` descending: the record goes before the first entry whose
index does not exceed its own. -/
def insertDesc (r : ClaimRecord) : List ClaimRecord → List ClaimRecord
  | [] => [r]
  | x :: xs =>
      if x.created_idx ≤ r.created_idx then r :: x :: xs
      else x :: insertDesc r xs

/-- Stable descending insertion sort by `created_idx`; the embedding of
Python's stable `sorted(..., key=lambda c: c["created_idx"],
reverse=True)`. -/
def sortByIdxDesc : List ClaimRecord → List ClaimRecord
  | [] => []
  | x :: xs => insertDesc x (sortByIdxDesc xs)

/-- Embedding of `get_sorted_claims` (lines 285-290): the dict values in
insertion order, stably sorted by creation index descending. -/
def get_sorted_claims (s : AppState) : List ClaimRecord :=
  sortByIdxDesc (s.claims_db.map Prod.snd)

/-- Embedding of the delete action of `render_history` (lines 396-399):
`del st.session_state.claims_db[cid]` plus clearing the two UI strings. -/
def delete_claim_action (s : AppState) (cid : String) : AppState :=
  { s with claims_db := s.claims_db.eraseP (fun p => p.1 == cid),
           send_status := "", customer_msg := "" }

/-- Embedding of the status mutation of `render_claim_intelligence`
(lines 462-476): `claims_db[cid]["status"] = status`, an in-place update
of the record under `cid` that touches no other field and no other
record. -/
def set_claim_status (s : AppState) (cid status : String) : AppState :=
  { s with claims_db :=
      s.claims_db.map fun p =>
        if p.1 == cid then (p.1, { p.2 with status := status }) else p }

/-- The claim-form fields of one submission (`main`, lines 533-565). -/
structure ClaimInput where
  claim_id : String
  customer_name : String
  customer_contact : String
  type : String
  channel : String
  car_model : String
  description : String
  has_photos : Bool
deriving DecidableEq

/-- How a submission can fail: the pre-call validation of `main`
(line 568) or a client error raised during the pipeline. -/
inductive SubmitError where
  | validationFailure
  | agentFailure (e : ServiceError)
deriving DecidableEq

/-- Embedding of the submission flow of `main` (lines 567-596): reject
when the stripped description or customer name is empty (state untouched);
otherwise run the pipeline — a raised client error propagates with the
state untouched — and on success save the record with status "Reviewing"
and point the workspace at it. -/
def submit_claim (client : Client) (s : AppState) (inp : ClaimInput)
    (now : Nat) : AppState × Option SubmitError :=
  if pyStrip inp.description = "" ∨ pyStrip inp.customer_name = "" then
    (s, some SubmitError.validationFailure)
  else
    match run_claim_pipeline_groq client inp.claim_id inp.type inp.channel
      inp.car_model inp.description inp.has_photos with
    | Except.error e => (s, some (SubmitError.agentFailure e))
    | Except.ok pr =>
        let s' := save_claim_record s inp.claim_id inp.customer_name
          inp.customer_contact inp.type inp.channel inp.car_model
          inp.description pr "Reviewing" now
        ({ s' with active_claim_id := some inp.claim_id,
                   customer_msg := "", send_status := "" }, none)

/-- The store operations reachable from the UI, for reasoning about
arbitrary operation sequences. -/
inductive StoreOp where
  | create (claim_id customer_name customer_contact claim_type channel
      car_model description : String) (pr : PipelineResult) (now : Nat)
  | delete (claim_id : String)
  | setStatus (claim_id status : String)

/-- Apply one store operation. -/
def applyOp (s : AppState) : StoreOp → AppState
  | StoreOp.create cid cn cc ct ch cm d pr now =>
      save_claim_record s cid cn cc ct ch cm d pr "Reviewing" now
  | StoreOp.delete cid => delete_claim_action s cid
  | StoreOp.setStatus cid v => set_claim_status s cid v

/-- Apply a sequence of store operations, left to right. -/
def applyOps (s : AppState) : List StoreOp → AppState
  | [] => s
  | op :: ops => applyOps (applyOp s op) ops

/-- The creation indices handed out by the `create` operations of a run,
in order. -/
def assignedIdxs (s : AppState) : List StoreOp → List Nat
  | [] => []
  | op :: ops =>
      match op with
      | StoreOp.create _ _ _ _ _ _ _ _ _ =>
          (s.next_idx + 1) :: assignedIdxs (applyOp s op) ops
      | _ => assignedIdxs (applyOp s op) ops

/-- Store well-formedness: dict keys are unique and every stored creation
index is bounded by the running counter. Holds in every state reachable
from `init_state` (see `storeInv_applyOps`). -/
def StoreInv (s : AppState) : Prop :=
  (s.claims_db.map Prod.fst).Nodup ∧
    ∀ p ∈ s.claims_db, p.2.created_idx ≤ s.next_idx

/-- Number of stored entries under a given claim id. -/
def countKey (db : List (String × ClaimRecord)) (k : String) : Nat :=
  (db.filter (fun p => p.1 == k)).length

/-! ### Helper lemmas -/

/-- An infix of a list maps to an infix of the mapped list. -/
theorem infix_map {α β : Type} (f : α → β) {l₁ l₂ : List α}
    (h : l₁ <:+: l₂) : l₁.map f <:+: l₂.map f := by
  obtain ⟨p, q, hpq⟩ := h
  exact ⟨p.map f, q.map f, by simp [hpq.symm]⟩

/-- Correctness of the executable substring test. -/
theorem containsSub_iff (haystack pat : String) :
    containsSub haystack pat = true ↔ pat.data <:+: haystack.data :=
  decide_eq_true_iff

/-- The data of the lowered string is the lowered data. -/
theorem strLower_data (s : String) :
    (strLower s).data = s.data.map Char.toLower := rfl


theorem find?_key_map_update (k : String) (v : ClaimRecord) :
    ∀ db : List (String × ClaimRecord),
      db.any (fun p => p.1 == k) = true →
      (db.map (fun p => if p.1 == k then (k, v) else p)).find?
          (fun p => p.1 == k) = some (k, v)
  | [], h => by simp at h
  | hd :: tl, h => by
    by_cases hk : hd.1 = k
    · rw [List.map_cons, if_pos (beq_iff_eq.mpr hk),
        List.find?_cons_of_pos _ (by simp)]
    · have htl : tl.any (fun p => p.1 == k) = true := by
        simp only [List.any_cons, Bool.or_eq_true] at h
        rcases h with h | h
        · exact absurd (beq_iff_eq.mp h) hk
        · exact h
      rw [List.map_cons, if_neg (by simp [hk]),
        List.find?_cons_of_neg _ (by simp [hk])]
      exact find?_key_map_update k v tl htl

theorem find?_key_append_single (k : String) (v : ClaimRecord) :
    ∀ db : List (String × ClaimRecord),
      db.any (fun p => p.1 == k) = false →
      (db ++ [(k, v)]).find? (fun p => p.1 == k) = some (k, v)
  | [], _ => by
    rw [List.nil_append, List.find?_cons_of_pos _ (by simp)]
  | hd :: tl, h => by
    simp only [List.any_cons, Bool.or_eq_false_iff] at h
    have hk : ¬ hd.1 = k := by
      intro hc
      simp [hc] at h
    rw [List.cons_append, List.find?_cons_of_neg _ (by simp [hk])]
    exact find?_key_append_single k v tl h.2

theorem dictGet_dictSet_self (db : List (String × ClaimRecord))
    (k : String) (v : ClaimRecord) :
    dictGet (dictSet db k v) k = some v := by
  unfold dictGet dictSet
  by_cases h : db.any (fun p => p.1 == k) = true
  · rw [if_pos h, find?_key_map_update k v db h]
    rfl
  · rw [if_neg h, find?_key_append_single k v db (Bool.eq_false_iff.mpr h)]
    rfl

theorem mem_dictSet {db : List (String × ClaimRecord)} {k : String}
    {v : ClaimRecord} {q : String × ClaimRecord}
    (hq : q ∈ dictSet db k v) : q = (k, v) ∨ q ∈ db := by
  unfold dictSet at hq
  by_cases h : db.any (fun p => p.1 == k) = true
  · rw [if_pos h] at hq
    obtain ⟨p, hp, hfp⟩ := List.mem_map.mp hq
    by_cases hpk : p.1 = k
    · left; rw [← hfp]; simp [hpk]
    · right
      rw [← hfp, if_neg (by simp [hpk])]
      exact hp
  · rw [if_neg h] at hq
    rcases List.mem_append.mp hq with h' | h'
    · right; exact h'
    · left; simpa using h'

theorem value_mem_dictSet (db : List (String × ClaimRecord)) (k : String)
    (v : ClaimRecord) : v ∈ (dictSet db k v).map Prod.snd := by
  have h := dictGet_dictSet_self db k v
  unfold dictGet at h
  cases hfind : (dictSet db k v).find? (fun p => p.1 == k) with
  | none => rw [hfind] at h; simp at h
  | some q =>
    rw [hfind] at h
    have hq : q ∈ dictSet db k v := List.mem_of_find?_eq_some hfind
    have hqv : q.2 = v := by simpa using h
    have hmem : q.2 ∈ (dictSet db k v).map Prod.snd :=
      List.mem_map_of_mem Prod.snd hq
    rwa [hqv] at hmem

theorem keys_dictSet (db : List (String × ClaimRecord)) (k : String)
    (v : ClaimRecord) :
    (dictSet db k v).map Prod.fst =
      if db.any (fun p => p.1 == k) = true then db.map Prod.fst
      else db.map Prod.fst ++ [k] := by
  unfold dictSet
  by_cases h : db.any (fun p => p.1 == k) = true
  · rw [if_pos h, if_pos h, List.map_map]
    refine List.map_congr_left fun p _ => ?_
    by_cases hpk : p.1 = k
    · simp [hpk]
    · simp [hpk]
  · rw [if_neg h, if_neg h]
    simp

theorem keysNodup_dictSet {db : List (String × ClaimRecord)} {k : String}
    {v : ClaimRecord} (h : (db.map Prod.fst).Nodup) :
    ((dictSet db k v).map Prod.fst).Nodup := by
  rw [keys_dictSet]
  by_cases hany : db.any (fun p => p.1 == k) = true
  · rwa [if_pos hany]
  · rw [if_neg hany]
    have hnot : k ∉ db.map Prod.fst := by
      intro hk
      obtain ⟨p, hp, hpk⟩ := List.mem_map.mp hk
      exact hany (List.any_eq_true.mpr ⟨p, hp, by simp [hpk]⟩)
    simp [List.nodup_append, h, hnot]

theorem countKey_eq_zero_of_any_false (k : String) :
    ∀ db : List (String × ClaimRecord),
      db.any (fun p => p.1 == k) = false → countKey db k = 0
  | [], _ => rfl
  | hd :: tl, h => by
    simp only [List.any_cons, Bool.or_eq_false_iff] at h
    unfold countKey
    rw [List.filter_cons, h.1]
    exact countKey_eq_zero_of_any_false k tl h.2

theorem any_key_eq_false_of_not_mem {db : List (String × ClaimRecord)}
    {k : String} (h : k ∉ db.map Prod.fst) :
    db.any (fun p => p.1 == k) = false := by
  rw [Bool.eq_false_iff]
  intro hc
  obtain ⟨p, hp, hpk⟩ := List.any_eq_true.mp hc
  exact h (List.mem_map.mpr ⟨p, hp, (beq_iff_eq.mp hpk)⟩)

theorem countKey_map_update (k : String) (v : ClaimRecord) :
    ∀ db : List (String × ClaimRecord),
      countKey (db.map (fun p => if p.1 == k then (k, v) else p)) k
        = countKey db k
  | [] => rfl
  | hd :: tl => by
    unfold countKey
    rw [List.map_cons, List.filter_cons, List.filter_cons]
    by_cases hk : hd.1 = k
    · rw [if_pos (beq_iff_eq.mpr hk)]
      simp only [beq_iff_eq.mpr hk, if_pos, beq_self_eq_true]
      simp only [List.length_cons]
      have := countKey_map_update k v tl
      unfold countKey at this
      rw [this]
    · rw [if_neg (by simp [hk])]
      simp only [beq_eq_false_iff_ne.mpr hk]
      have := countKey_map_update k v tl
      unfold countKey at this
      rw [this]
      simp

theorem countKey_le_one_of_nodup (k : String) :
    ∀ db : List (String × ClaimRecord),
      (db.map Prod.fst).Nodup → countKey db k ≤ 1
  | [], _ => by simp [countKey]
  | hd :: tl, h => by
    rw [List.map_cons, List.nodup_cons] at h
    unfold countKey
    rw [List.filter_cons]
    by_cases hk : hd.1 = k
    · rw [if_pos (beq_iff_eq.mpr hk)]
      have hz : countKey tl k = 0 :=
        countKey_eq_zero_of_any_false k tl
          (any_key_eq_false_of_not_mem (hk ▸ h.1))
      unfold countKey at hz
      simp [hz]
    · rw [if_neg (by simp [hk])]
      exact countKey_le_one_of_nodup k tl h.2

theorem countKey_pos_of_any_true (k : String) :
    ∀ db : List (String × ClaimRecord),
      db.any (fun p => p.1 == k) = true → 1 ≤ countKey db k
  | [], h => by simp at h
  | hd :: tl, h => by
    unfold countKey
    rw [List.filter_cons]
    by_cases hk : hd.1 = k
    · rw [if_pos (beq_iff_eq.mpr hk)]
      simp
    · rw [if_neg (by simp [hk])]
      have htl : tl.any (fun p => p.1 == k) = true := by
        simp only [List.any_cons, Bool.or_eq_true] at h
        rcases h with h | h
        · exact absurd (beq_iff_eq.mp h) hk
        · exact h
      exact countKey_pos_of_any_true k tl htl

theorem countKey_dictSet_self {db : List (String × ClaimRecord)}
    (k : String) (v : ClaimRecord)
    (hnodup : (db.map Prod.fst).Nodup) :
    countKey (dictSet db k v) k = 1 := by
  unfold dictSet
  by_cases h : db.any (fun p => p.1 == k) = true
  · rw [if_pos h, countKey_map_update k v db]
    exact le_antisymm (countKey_le_one_of_nodup k db hnodup)
      (countKey_pos_of_any_true k db h)
  · rw [if_neg h]
    have h0 : (db.filter (fun p => p.1 == k)).length = 0 :=
      countKey_eq_zero_of_any_false k db (Bool.eq_false_iff.mpr h)
    unfold countKey
    rw [List.filter_append, List.length_append, h0]
    simp

theorem statusMap_find? (cid v k : String)
    (db : List (String × ClaimRecord)) :
    (db.map (fun p =>
        if p.1 == cid then (p.1, { p.2 with status := v }) else p)).find?
        (fun p => p.1 == k)
      = (db.find? (fun p => p.1 == k)).map (fun p =>
          if p.1 == cid then (p.1, { p.2 with status := v }) else p) := by
  rw [List.find?_map]
  have hpred : ((fun p : String × ClaimRecord => p.1 == k) ∘ (fun p =>
      if p.1 == cid then (p.1, { p.2 with status := v }) else p))
      = fun p : String × ClaimRecord => p.1 == k := by
    funext p
    by_cases h : p.1 = cid
    · simp [h]
    · simp [h]
  rw [hpred]

theorem dictGet_set_claim_status_self (s : AppState) (cid v : String)
    (old : ClaimRecord) (h : dictGet s.claims_db cid = some old) :
    dictGet (set_claim_status s cid v).claims_db cid
      = some { old with status := v } := by
  unfold set_claim_status dictGet at *
  rw [statusMap_find?]
  cases hf : s.claims_db.find? (fun p => p.1 == cid) with
  | none => rw [hf] at h; simp at h
  | some q =>
    rw [hf] at h
    have hq2 : q.2 = old := by simpa using h
    have hq1 := List.find?_some hf
    simp only [] at hq1
    have hq1' : q.1 = cid := by simpa using hq1
    simp [hq1', hq2]

theorem dictGet_set_claim_status_other (s : AppState) (cid v k : String)
    (hne : k ≠ cid) :
    dictGet (set_claim_status s cid v).claims_db k
      = dictGet s.claims_db k := by
  unfold set_claim_status dictGet
  rw [statusMap_find?]
  cases hf : s.claims_db.find? (fun p => p.1 == k) with
  | none => simp
  | some q =>
    have hq1 := List.find?_some hf
    have hq1' : q.1 = k := by simpa using hq1
    have hqcid : ¬ q.1 = cid := by
      rw [hq1']
      exact hne
    simp [hqcid]

theorem mem_insertDesc (r : ClaimRecord) :
    ∀ l : List ClaimRecord, ∀ x ∈ insertDesc r l, x = r ∨ x ∈ l
  | [], x, hx => by
    unfold insertDesc at hx
    simp at hx
    exact Or.inl hx
  | hd :: tl, x, hx => by
    unfold insertDesc at hx
    by_cases hle : hd.created_idx ≤ r.created_idx
    · rw [if_pos hle] at hx
      exact List.mem_cons.mp hx
    · rw [if_neg hle] at hx
      rcases List.mem_cons.mp hx with h | h
      · exact Or.inr (h ▸ List.mem_cons_self hd tl)
      · rcases mem_insertDesc r tl x h with h' | h'
        · exact Or.inl h'
        · exact Or.inr (List.mem_cons_of_mem hd h')

theorem mem_sortByIdxDesc :
    ∀ l : List ClaimRecord, ∀ x ∈ sortByIdxDesc l, x ∈ l
  | [], x, hx => by simp [sortByIdxDesc] at hx
  | hd :: tl, x, hx => by
    unfold sortByIdxDesc at hx
    rcases mem_insertDesc hd (sortByIdxDesc tl) x hx with h | h
    · exact h ▸ List.mem_cons_self hd tl
    · exact List.mem_cons_of_mem hd (mem_sortByIdxDesc tl x h)

theorem head_insertDesc_of_all_le (r : ClaimRecord) :
    ∀ l : List ClaimRecord,
      (∀ x ∈ l, x.created_idx ≤ r.created_idx) →
      (insertDesc r l).head? = some r
  | [], _ => rfl
  | hd :: tl, h => by
    unfold insertDesc
    rw [if_pos (h hd (List.mem_cons_self hd tl))]
    rfl

theorem sort_head_max :
    ∀ (l : List ClaimRecord) (r : ClaimRecord), r ∈ l →
      (∀ x ∈ l, x = r ∨ x.created_idx < r.created_idx) →
      (sortByIdxDesc l).head? = some r
  | [], r, hr, _ => absurd hr (by simp)
  | hd :: tl, r, hr, hmax => by
    unfold sortByIdxDesc
    by_cases hrt : r ∈ tl
    · have ih := sort_head_max tl r hrt
        (fun x hx => hmax x (List.mem_cons_of_mem hd hx))
      cases hsort : sortByIdxDesc tl with
      | nil => rw [hsort] at ih; simp at ih
      | cons y t' =>
        rw [hsort] at ih
        have hyr : y = r := by simpa using ih
        subst hyr
        unfold insertDesc
        rcases hmax hd (List.mem_cons_self hd tl) with hhd | hhd
        · subst hhd
          rw [if_pos (le_refl _)]
          rfl
        · rw [if_neg (by omega)]
          rfl
    · have hrd : hd = r := by
        rcases List.mem_cons.mp hr with h | h
        · exact h.symm
        · exact absurd h hrt
      subst hrd
      exact head_insertDesc_of_all_le hd (sortByIdxDesc tl) fun x hx => by
        rcases hmax x (List.mem_cons_of_mem hd (mem_sortByIdxDesc tl x hx))
          with h | h
        · exact h ▸ le_refl _
        · exact Nat.le_of_lt h

theorem storeInv_init : StoreInv init_state := by
  constructor
  · simp [init_state]
  · intro p hp
    simp [init_state] at hp

theorem storeInv_applyOp {s : AppState} (h : StoreInv s) (op : StoreOp) :
    StoreInv (applyOp s op) := by
  cases op with
  | create cid cn cc ct ch cm d pr now =>
    constructor
    · exact keysNodup_dictSet h.1
    · intro p hp
      rcases mem_dictSet hp with hpv | hpo
      · subst hpv
        rfl
      · exact Nat.le_succ_of_le (h.2 p hpo)
  | delete cid =>
    constructor
    · exact List.Nodup.sublist
        (List.Sublist.map Prod.fst (List.eraseP_sublist _)) h.1
    · intro p hp
      exact h.2 p (List.mem_of_mem_eraseP hp)
  | setStatus cid v =>
    show StoreInv (set_claim_status s cid v)
    constructor
    · have hkeys : ((set_claim_status s cid v).claims_db.map Prod.fst)
          = s.claims_db.map Prod.fst := by
        unfold set_claim_status
        rw [List.map_map]
        refine List.map_congr_left fun p _ => ?_
        by_cases hpk : p.1 = cid
        · simp [hpk]
        · simp [hpk]
      rw [hkeys]
      exact h.1
    · intro p hp
      unfold set_claim_status at hp
      obtain ⟨q, hq, hqp⟩ := List.mem_map.mp hp
      by_cases hqk : q.1 = cid
      · rw [← hqp, if_pos (beq_iff_eq.mpr hqk)]
        exact h.2 q hq
      · rw [← hqp, if_neg (by simp [hqk])]
        exact h.2 q hq

theorem storeInv_applyOps {s : AppState} (h : StoreInv s) :
    ∀ ops : List StoreOp, StoreInv (applyOps s ops)
  | [] => h
  | op :: ops => storeInv_applyOps (storeInv_applyOp h op) ops

theorem assignedIdxs_bounds :
    ∀ (ops : List StoreOp) (s : AppState),
      List.Pairwise (· < ·) (assignedIdxs s ops) ∧
        ∀ n ∈ assignedIdxs s ops, s.next_idx < n
  | [], s => ⟨List.Pairwise.nil, by intro n hn; simp [assignedIdxs] at hn⟩
  | op :: ops, s => by
    cases op with
    | create cid cn cc ct ch cm d pr now =>
      have ih := assignedIdxs_bounds ops
        (applyOp s (StoreOp.create cid cn cc ct ch cm d pr now))
      have hnext : (applyOp s
          (StoreOp.create cid cn cc ct ch cm d pr now)).next_idx
          = s.next_idx + 1 := rfl
      rw [hnext] at ih
      constructor
      · refine List.Pairwise.cons (fun n hn => ?_) ih.1
        have := ih.2 n hn
        omega
      · intro n hn
        rcases List.mem_cons.mp hn with h' | h'
        · omega
        · have := ih.2 n h'
          omega
    | delete cid =>
      have ih := assignedIdxs_bounds ops (applyOp s (StoreOp.delete cid))
      have hnext : (applyOp s (StoreOp.delete cid)).next_idx = s.next_idx :=
        rfl
      rw [hnext] at ih
      exact ih
    | setStatus cid v =>
      have ih := assignedIdxs_bounds ops
        (applyOp s (StoreOp.setStatus cid v))
      have hnext : (applyOp s (StoreOp.setStatus cid v)).next_idx
          = s.next_idx := rfl
      rw [hnext] at ih
      exact ih

/-- A failed substring test, from the absence of the infix. -/
theorem containsSub_eq_false {h p : String} (hn : ¬ p.data <:+: h.data) :
    containsSub h p = false := by
  rw [Bool.eq_false_iff]
  intro hc
  exact hn ((containsSub_iff h p).mp hc)

/-- C3: `extract_priority_label` performs a case-insensitive substring
scan of the triage text in the fixed precedence order HIGH, then MEDIUM,
then LOW, first match winning and no match giving UNSPECIFIED. In
particular any text containing case variants of both "high" and "low" as
substrings maps to "HIGH", and any text containing none of the three
keywords (case-insensitively) maps to "UNSPECIFIED". -/
theorem extract_priority_precedence :
    (∀ s u v : String, strLower u = "high" → strLower v = "low" →
        u.data <:+: s.data → v.data <:+: s.data →
        extract_priority_label s = "HIGH")
  ∧ (∀ s : String, "high".data <:+: (strLower s).data →
        extract_priority_label s = "HIGH")
  ∧ (∀ s : String, ¬ "high".data <:+: (strLower s).data →
        "medium".data <:+: (strLower s).data →
        extract_priority_label s = "MEDIUM")
  ∧ (∀ s : String, ¬ "high".data <:+: (strLower s).data →
        ¬ "medium".data <:+: (strLower s).data →
        "low".data <:+: (strLower s).data →
        extract_priority_label s = "LOW")
  ∧ (∀ s : String, ¬ "high".data <:+: (strLower s).data →
        ¬ "medium".data <:+: (strLower s).data →
        ¬ "low".data <:+: (strLower s).data →
        extract_priority_label s = "UNSPECIFIED") := by
  have hhigh : ∀ s : String, "high".data <:+: (strLower s).data →
      extract_priority_label s = "HIGH" := by
    intro s h
    simp [extract_priority_label, (containsSub_iff _ _).mpr h]
  refine ⟨?_, hhigh, ?_, ?_, ?_⟩
  · intro s u v hu hv hus _
    apply hhigh
    rw [← hu, strLower_data, strLower_data]
    exact infix_map Char.toLower hus
  · intro s h1 h2
    simp [extract_priority_label, containsSub_eq_false h1,
      (containsSub_iff _ _).mpr h2]
  · intro s h1 h2 h3
    simp [extract_priority_label, containsSub_eq_false h1,
      containsSub_eq_false h2, (containsSub_iff _ _).mpr h3]
  · intro s h1 h2 h3
    simp [extract_priority_label, containsSub_eq_false h1,
      containsSub_eq_false h2, containsSub_eq_false h3]

/-- Witness for C3 at concrete triage texts. -/
theorem extract_priority_precedence_witness :
    extract_priority_label "Severity: HIGH with low impact" = "HIGH" ∧
    extract_priority_label "Medium priority case" = "MEDIUM" ∧
    extract_priority_label "routine low-impact scrape" = "LOW" ∧
    extract_priority_label "no keywords here" = "UNSPECIFIED" :=
  ⟨extract_priority_precedence.1 "Severity: HIGH with low impact" "HIGH"
      "low" (by decide) (by decide) (by decide) (by decide),
    extract_priority_precedence.2.2.1 "Medium priority case" (by decide)
      (by decide),
    extract_priority_precedence.2.2.2.1 "routine low-impact scrape"
      (by decide) (by decide) (by decide),
    extract_priority_precedence.2.2.2.2 "no keywords here" (by decide)
      (by decide) (by decide)⟩

/-- A client whose every call succeeds with empty message text. -/
def c1EmptyClient : Client := fun _ _ _ => Except.ok (MsgContent.text "")

/-- Counterexample to C1: on a valid submission (non-empty description),
a client that returns empty text for every stage makes the pipeline
return successfully with all four text fields empty — it neither returns
non-empty fields nor raises any failure. -/
theorem pipeline_empty_text_counterexample :
    run_claim_pipeline_groq c1EmptyClient "CLM-001" "Collision"
        "Web Portal" "Maruti Suzuki Baleno 2022"
        "Rear-ended at a signal, bumper dented" false
      = Except.ok
        { overview := { claim_id := "CLM-001", claim_type := "Collision",
                        channel := "Web Portal",
                        car_model := "Maruti Suzuki Baleno 2022",
                        has_photos := false },
          triage := "", damage := "", evidence := "", settlement := "" } ∧
    ¬ (∀ pr : PipelineResult,
        run_claim_pipeline_groq c1EmptyClient "CLM-001" "Collision"
            "Web Portal" "Maruti Suzuki Baleno 2022"
            "Rear-ended at a signal, bumper dented" false
          = Except.ok pr →
        pr.triage ≠ "" ∧ pr.damage ≠ "" ∧ pr.evidence ≠ "" ∧
          pr.settlement ≠ "") :=
  ⟨rfl, fun h => ((h _ rfl).1 rfl)⟩

/-- C1 (amended): whenever all four client calls succeed, the pipeline
returns a PipelineResult whose four text fields are exactly the four
returned texts — empty text included; no emptiness check is made and no
failure is raised for empty text. -/
theorem pipeline_returns_exact_agent_texts (client : Client)
    (claim_id claim_type channel car_model description : String)
    (has_photos : Bool) (t dm ev sl : String)
    (ht : triage_agent_groq client claim_type description = Except.ok t)
    (hdm : damage_agent_groq client claim_type car_model description
        has_photos = Except.ok dm)
    (hev : evidence_agent_groq client description has_photos
        = Except.ok ev)
    (hsl : settlement_agent_groq client claim_type car_model description
        = Except.ok sl) :
    run_claim_pipeline_groq client claim_id claim_type channel car_model
        description has_photos
      = Except.ok
        { overview := { claim_id := claim_id, claim_type := claim_type,
                        channel := channel, car_model := car_model,
                        has_photos := has_photos },
          triage := t, damage := dm, evidence := ev, settlement := sl } := by
  unfold run_claim_pipeline_groq
  rw [ht, hdm, hev, hsl]

/-- Witness for the amended C1, at a client returning empty texts. -/
theorem pipeline_returns_exact_agent_texts_witness :
    run_claim_pipeline_groq c1EmptyClient "CLM-002" "Windscreen"
        "Mobile App" "Tata Tiago" "cracked windscreen" true
      = Except.ok
        { overview := { claim_id := "CLM-002", claim_type := "Windscreen",
                        channel := "Mobile App", car_model := "Tata Tiago",
                        has_photos := true },
          triage := "", damage := "", evidence := "", settlement := "" } :=
  pipeline_returns_exact_agent_texts c1EmptyClient "CLM-002" "Windscreen"
    "Mobile App" "Tata Tiago" "cracked windscreen" true "" "" "" ""
    rfl rfl rfl rfl

/-- A client that fails every call with the same error. -/
def c9FailAllClient : Client := fun _ _ _ =>
  Except.error "service unavailable"

/-- A client that answers the triage prompt and fails every other call
with the same error as `c9FailAllClient`. -/
def c9FailAfterTriageClient : Client := fun sys _ _ =>
  if sys == "You are a precise vehicle insurance triage engine." then
    Except.ok (MsgContent.text "Low severity.")
  else Except.error "service unavailable"

/-- Counterexample to C9: two runs that fail at different stages (the
first at triage, the second at damage) surface the identical error value,
so the surfaced error does not name the failed agent stage. -/
theorem pipeline_error_nameless_counterexample :
    run_claim_pipeline_groq c9FailAllClient "CLM-001" "Collision"
        "Web Portal" "Car" "bumper dented" false
      = Except.error "service unavailable" ∧
    run_claim_pipeline_groq c9FailAfterTriageClient "CLM-001" "Collision"
        "Web Portal" "Car" "bumper dented" false
      = Except.error "service unavailable" ∧
    triage_agent_groq c9FailAllClient "Collision" "bumper dented"
      = Except.error "service unavailable" ∧
    triage_agent_groq c9FailAfterTriageClient "Collision" "bumper dented"
      = Except.ok "Low severity." ∧
    damage_agent_groq c9FailAfterTriageClient "Collision" "Car"
        "bumper dented" false
      = Except.error "service unavailable" :=
  ⟨rfl, rfl, rfl, rfl, rfl⟩

/-- C9 (amended): when the pipeline fails, it fails with the first failing
agent call's client error propagated unchanged; no stage identification is
added to the error. -/
theorem pipeline_propagates_first_client_error (client : Client)
    (claim_id claim_type channel car_model description : String)
    (has_photos : Bool) (e : ServiceError)
    (h : run_claim_pipeline_groq client claim_id claim_type channel
        car_model description has_photos = Except.error e) :
    triage_agent_groq client claim_type description = Except.error e ∨
    ((∃ t, triage_agent_groq client claim_type description = Except.ok t) ∧
      damage_agent_groq client claim_type car_model description has_photos
        = Except.error e) ∨
    ((∃ t, triage_agent_groq client claim_type description = Except.ok t) ∧
      (∃ dm, damage_agent_groq client claim_type car_model description
        has_photos = Except.ok dm) ∧
      evidence_agent_groq client description has_photos
        = Except.error e) ∨
    ((∃ t, triage_agent_groq client claim_type description = Except.ok t) ∧
      (∃ dm, damage_agent_groq client claim_type car_model description
        has_photos = Except.ok dm) ∧
      (∃ ev, evidence_agent_groq client description has_photos
        = Except.ok ev) ∧
      settlement_agent_groq client claim_type car_model description
        = Except.error e) := by
  unfold run_claim_pipeline_groq at h
  cases ht : triage_agent_groq client claim_type description with
  | error e1 =>
    rw [ht] at h
    simp at h
    exact Or.inl (by rw [h])
  | ok t =>
    rw [ht] at h
    cases hdm : damage_agent_groq client claim_type car_model description
        has_photos with
    | error e1 =>
      rw [hdm] at h
      simp at h
      exact Or.inr (Or.inl ⟨⟨t, rfl⟩, by rw [h]⟩)
    | ok dm =>
      rw [hdm] at h
      cases hev : evidence_agent_groq client description has_photos with
      | error e1 =>
        rw [hev] at h
        simp at h
        exact Or.inr (Or.inr (Or.inl ⟨⟨t, rfl⟩, ⟨dm, rfl⟩, by rw [h]⟩))
      | ok ev =>
        rw [hev] at h
        cases hsl : settlement_agent_groq client claim_type car_model
            description with
        | error e1 =>
          rw [hsl] at h
          simp at h
          exact Or.inr (Or.inr (Or.inr
            ⟨⟨t, rfl⟩, ⟨dm, rfl⟩, ⟨ev, rfl⟩, by rw [h]⟩))
        | ok sl =>
          rw [hsl] at h
          simp at h

/-- Witness for the amended C9 at a concretely failing client. -/
theorem pipeline_propagates_first_client_error_witness :
    triage_agent_groq c9FailAllClient "Collision" "scratched door"
      = Except.error "service unavailable" ∨
    ((∃ t, triage_agent_groq c9FailAllClient "Collision" "scratched door"
        = Except.ok t) ∧
      damage_agent_groq c9FailAllClient "Collision" "Car" "scratched door"
        false = Except.error "service unavailable") ∨
    ((∃ t, triage_agent_groq c9FailAllClient "Collision" "scratched door"
        = Except.ok t) ∧
      (∃ dm, damage_agent_groq c9FailAllClient "Collision" "Car"
        "scratched door" false = Except.ok dm) ∧
      evidence_agent_groq c9FailAllClient "scratched door" false
        = Except.error "service unavailable") ∨
    ((∃ t, triage_agent_groq c9FailAllClient "Collision" "scratched door"
        = Except.ok t) ∧
      (∃ dm, damage_agent_groq c9FailAllClient "Collision" "Car"
        "scratched door" false = Except.ok dm) ∧
      (∃ ev, evidence_agent_groq c9FailAllClient "scratched door" false
        = Except.ok ev) ∧
      settlement_agent_groq c9FailAllClient "Collision" "Car"
        "scratched door" = Except.error "service unavailable") :=
  pipeline_propagates_first_client_error c9FailAllClient "CLM-009"
    "Collision" "Call Centre" "Car" "scratched door" false
    "service unavailable" rfl

/-- C2: when the pipeline run of a validated submission fails (any one of
the four agent calls errored), the whole submission fails: the returned
state is exactly the pre-submission state (the claim record store and the
counter are completely unchanged, no ClaimRecord is created) and the
failure is reported instead of a result. -/
theorem failed_pipeline_leaves_store_unchanged (client : Client)
    (s : AppState) (inp : ClaimInput) (now : Nat) (e : ServiceError)
    (hdesc : ¬ pyStrip inp.description = "")
    (hname : ¬ pyStrip inp.customer_name = "")
    (herr : run_claim_pipeline_groq client inp.claim_id inp.type
        inp.channel inp.car_model inp.description inp.has_photos
        = Except.error e) :
    submit_claim client s inp now
      = (s, some (SubmitError.agentFailure e)) := by
  unfold submit_claim
  rw [if_neg (not_or.mpr ⟨hdesc, hname⟩), herr]

/-- A client failing every call, for the C2 witness. -/
def c2FailClient : Client := fun _ _ _ => Except.error "boom"

/-- Witness for C2 at a concrete failing submission. -/
theorem failed_pipeline_leaves_store_unchanged_witness :
    submit_claim c2FailClient init_state
      { claim_id := "CLM-001", customer_name := "Asha Rao",
        customer_contact := "", type := "Collision",
        channel := "Web Portal", car_model := "Honda City",
        description := "Rear-ended at a signal", has_photos := false } 7
    = (init_state, some (SubmitError.agentFailure "boom")) :=
  failed_pipeline_leaves_store_unchanged c2FailClient init_state
    { claim_id := "CLM-001", customer_name := "Asha Rao",
      customer_contact := "", type := "Collision",
      channel := "Web Portal", car_model := "Honda City",
      description := "Rear-ended at a signal", has_photos := false } 7
    "boom" (by decide) (by decide) rfl

/-- C4: a submission whose customer name or description is empty (after
stripping) is rejected with the validation failure, the returned state is
exactly the pre-submission state, and the result is the same for every
client — no agent is consulted and no ClaimRecord is created. -/
theorem validation_rejects_before_model_call (client : Client)
    (s : AppState) (inp : ClaimInput) (now : Nat)
    (h : pyStrip inp.customer_name = "" ∨ pyStrip inp.description = "") :
    submit_claim client s inp now
      = (s, some SubmitError.validationFailure) := by
  unfold submit_claim
  rw [if_pos (h.elim Or.inr Or.inl)]

/-- A client answering every call, to exhibit in the C4 witness that even
an always-successful client is never consulted on an invalid submission. -/
def c4ProbeClient : Client := fun _ _ _ =>
  Except.ok (MsgContent.text "High severity")

/-- Witness for C4: an all-whitespace customer name is rejected. -/
theorem validation_rejects_before_model_call_witness :
    submit_claim c4ProbeClient init_state
      { claim_id := "CLM-001", customer_name := "   ",
        customer_contact := "", type := "Collision",
        channel := "Web Portal", car_model := "Honda City",
        description := "Rear-ended at a signal", has_photos := false } 3
    = (init_state, some SubmitError.validationFailure) :=
  validation_rejects_before_model_call c4ProbeClient init_state
    { claim_id := "CLM-001", customer_name := "   ",
      customer_contact := "", type := "Collision",
      channel := "Web Portal", car_model := "Honda City",
      description := "Rear-ended at a signal", has_photos := false } 3
    (Or.inl (by decide))

/-- C5: over any sequence of store operations starting from the initial
state, the creation indices handed out by the successive creates are
pairwise strictly increasing — every newly created record receives a
`created_idx` strictly greater than every index assigned before it, never
reused, even across deletions. -/
theorem created_idx_strictly_increasing (ops : List StoreOp) :
    List.Pairwise (· < ·) (assignedIdxs init_state ops) :=
  (assignedIdxs_bounds ops init_state).1

/-- C6: `get_sorted_claims` orders records by creation index descending.
After creating records with distinct ids in order a, b, c from the empty
store, the listing is [c, b, a]; after deleting b it is [c, a]; a record
with fresh id d created after the delete appears first, giving
[d, c, a]. Record contents are arbitrary. -/
theorem list_by_recency_scenario
    (a b c d : String) (hab : a ≠ b) (hac : a ≠ c) (hbc : b ≠ c)
    (had : a ≠ d) (hcd : c ≠ d)
    (cn1 cc1 ct1 ch1 cm1 ds1 : String) (pr1 : PipelineResult) (n1 : Nat)
    (cn2 cc2 ct2 ch2 cm2 ds2 : String) (pr2 : PipelineResult) (n2 : Nat)
    (cn3 cc3 ct3 ch3 cm3 ds3 : String) (pr3 : PipelineResult) (n3 : Nat)
    (cn4 cc4 ct4 ch4 cm4 ds4 : String) (pr4 : PipelineResult) (n4 : Nat) :
    let s1 := save_claim_record init_state a cn1 cc1 ct1 ch1 cm1 ds1 pr1
      "Reviewing" n1
    let s2 := save_claim_record s1 b cn2 cc2 ct2 ch2 cm2 ds2 pr2
      "Reviewing" n2
    let s3 := save_claim_record s2 c cn3 cc3 ct3 ch3 cm3 ds3 pr3
      "Reviewing" n3
    let s4 := delete_claim_action s3 b
    let s5 := save_claim_record s4 d cn4 cc4 ct4 ch4 cm4 ds4 pr4
      "Reviewing" n4
    (get_sorted_claims s3).map (fun r => r.id) = [c, b, a] ∧
    (get_sorted_claims s4).map (fun r => r.id) = [c, a] ∧
    (get_sorted_claims s5).map (fun r => r.id) = [d, c, a] := by
  intro s1 s2 s3 s4 s5
  refine ⟨?_, ?_, ?_⟩ <;>
    simp [s5, s4, s3, s2, s1, save_claim_record, dictSet,
      delete_claim_action, init_state, get_sorted_claims, sortByIdxDesc,
      insertDesc, List.eraseP_cons, hab, hac, hbc, had, hcd,
      Ne.symm hab, Ne.symm hac, Ne.symm hbc, Ne.symm had, Ne.symm hcd]

/-- A concrete pipeline result used by the store-claim witnesses. -/
def wPR : PipelineResult :=
  { overview := { claim_id := "W", claim_type := "Collision",
                  channel := "Web Portal", car_model := "Car",
                  has_photos := false },
    triage := "High severity", damage := "dents", evidence := "summary",
    settlement := "range" }

/-- Witness for C6 at concrete ids and contents. -/
theorem list_by_recency_scenario_witness :
    let s1 := save_claim_record init_state "A" "n1" "c1" "t1" "h1" "m1"
      "d1" wPR "Reviewing" 11
    let s2 := save_claim_record s1 "B" "n2" "c2" "t2" "h2" "m2" "d2" wPR
      "Reviewing" 12
    let s3 := save_claim_record s2 "C" "n3" "c3" "t3" "h3" "m3" "d3" wPR
      "Reviewing" 13
    let s4 := delete_claim_action s3 "B"
    let s5 := save_claim_record s4 "D" "n4" "c4" "t4" "h4" "m4" "d4" wPR
      "Reviewing" 14
    (get_sorted_claims s3).map (fun r => r.id) = ["C", "B", "A"] ∧
    (get_sorted_claims s4).map (fun r => r.id) = ["C", "A"] ∧
    (get_sorted_claims s5).map (fun r => r.id) = ["D", "C", "A"] :=
  list_by_recency_scenario "A" "B" "C" "D" (by decide) (by decide)
    (by decide) (by decide) (by decide) "n1" "c1" "t1" "h1" "m1" "d1" wPR
    11 "n2" "c2" "t2" "h2" "m2" "d2" wPR 12 "n3" "c3" "t3" "h3" "m3" "d3"
    wPR 13 "n4" "c4" "t4" "h4" "m4" "d4" wPR 14

/-- C7: `save_claim_record` on a claim id already present never fails and
silently overwrites: after two creates with the same id on a store with
unique keys, exactly one record is stored under that id and it holds the
second create's content (with the freshly derived priority, the second
counter value and the second timestamp). -/
theorem create_overwrites_duplicate_id (s : AppState)
    (hnodup : (s.claims_db.map Prod.fst).Nodup) (cid : String)
    (cn1 cc1 ct1 ch1 cm1 ds1 : String) (pr1 : PipelineResult) (n1 : Nat)
    (cn2 cc2 ct2 ch2 cm2 ds2 : String) (pr2 : PipelineResult) (n2 : Nat) :
    let s1 := save_claim_record s cid cn1 cc1 ct1 ch1 cm1 ds1 pr1
      "Reviewing" n1
    let s2 := save_claim_record s1 cid cn2 cc2 ct2 ch2 cm2 ds2 pr2
      "Reviewing" n2
    dictGet s2.claims_db cid = some
      { id := cid, customer_name := cn2, customer_contact := cc2,
        type := ct2, channel := ch2, car_model := cm2,
        description := ds2, status := "Reviewing",
        priority := extract_priority_label pr2.triage,
        triage := pr2.triage, damage := pr2.damage,
        evidence := pr2.evidence, settlement := pr2.settlement,
        overview := pr2.overview, created_at := n2,
        created_idx := s.next_idx + 2 } ∧
    countKey s2.claims_db cid = 1 := by
  intro s1 s2
  constructor
  · have h := dictGet_dictSet_self s1.claims_db cid
      { id := cid, customer_name := cn2, customer_contact := cc2,
        type := ct2, channel := ch2, car_model := cm2,
        description := ds2, status := "Reviewing",
        priority := extract_priority_label pr2.triage,
        triage := pr2.triage, damage := pr2.damage,
        evidence := pr2.evidence, settlement := pr2.settlement,
        overview := pr2.overview, created_at := n2,
        created_idx := s1.next_idx + 1 }
    exact h
  · exact countKey_dictSet_self cid _ (keysNodup_dictSet hnodup)

/-- Witness for C7 at a concrete duplicated id. -/
theorem create_overwrites_duplicate_id_witness :
    let s1 := save_claim_record init_state "CLM-001" "Asha" "a@x" "t1"
      "h1" "m1" "d1" wPR "Reviewing" 21
    let s2 := save_claim_record s1 "CLM-001" "Ravi" "r@x" "t2" "h2" "m2"
      "d2" wPR "Reviewing" 22
    dictGet s2.claims_db "CLM-001" = some
      { id := "CLM-001", customer_name := "Ravi", customer_contact := "r@x",
        type := "t2", channel := "h2", car_model := "m2",
        description := "d2", status := "Reviewing",
        priority := extract_priority_label wPR.triage,
        triage := wPR.triage, damage := wPR.damage,
        evidence := wPR.evidence, settlement := wPR.settlement,
        overview := wPR.overview, created_at := 22,
        created_idx := init_state.next_idx + 2 } ∧
    countKey s2.claims_db "CLM-001" = 1 :=
  create_overwrites_duplicate_id init_state (by decide) "CLM-001" "Asha"
    "a@x" "t1" "h1" "m1" "d1" wPR 21 "Ravi" "r@x" "t2" "h2" "m2" "d2" wPR
    22

/-- C8: mutating the status of an existing record changes only that
record's status field: the record read back afterwards is the old record
with just the status replaced (priority and the four generated texts are
untouched and the priority is not re-derived), every other id reads back
unchanged, and the creation counter is untouched. -/
theorem set_status_changes_only_status (s : AppState) (cid v : String)
    (old : ClaimRecord) (hold : dictGet s.claims_db cid = some old) :
    dictGet (set_claim_status s cid v).claims_db cid
        = some { old with status := v } ∧
    (∀ k : String, k ≠ cid →
      dictGet (set_claim_status s cid v).claims_db k
        = dictGet s.claims_db k) ∧
    (set_claim_status s cid v).next_idx = s.next_idx ∧
    ({ old with status := v }).priority = old.priority ∧
    ({ old with status := v }).triage = old.triage ∧
    ({ old with status := v }).damage = old.damage ∧
    ({ old with status := v }).evidence = old.evidence ∧
    ({ old with status := v }).settlement = old.settlement ∧
    ({ old with status := v }).created_idx = old.created_idx :=
  ⟨dictGet_set_claim_status_self s cid v old hold,
    fun k hk => dictGet_set_claim_status_other s cid v k hk,
    rfl, rfl, rfl, rfl, rfl, rfl, rfl⟩

/-- Concrete one-record store for the C8 witness. -/
def c8Store : AppState :=
  save_claim_record init_state "CLM-001" "Asha" "" "Collision"
    "Web Portal" "Car" "desc" wPR "Reviewing" 9

/-- The record stored in `c8Store`. -/
def c8Old : ClaimRecord :=
  { id := "CLM-001", customer_name := "Asha", customer_contact := "",
    type := "Collision", channel := "Web Portal", car_model := "Car",
    description := "desc", status := "Reviewing", priority := "HIGH",
    triage := wPR.triage, damage := wPR.damage, evidence := wPR.evidence,
    settlement := wPR.settlement, overview := wPR.overview,
    created_at := 9, created_idx := 1 }

/-- Witness for C8: completing the concrete record keeps everything but
its status. -/
theorem set_status_changes_only_status_witness :
    dictGet (set_claim_status c8Store "CLM-001" "Completed").claims_db
        "CLM-001" = some { c8Old with status := "Completed" } ∧
    (∀ k : String, k ≠ "CLM-001" →
      dictGet (set_claim_status c8Store "CLM-001" "Completed").claims_db k
        = dictGet c8Store.claims_db k) ∧
    (set_claim_status c8Store "CLM-001" "Completed").next_idx
        = c8Store.next_idx ∧
    ({ c8Old with status := "Completed" }).priority = c8Old.priority ∧
    ({ c8Old with status := "Completed" }).triage = c8Old.triage ∧
    ({ c8Old with status := "Completed" }).damage = c8Old.damage ∧
    ({ c8Old with status := "Completed" }).evidence = c8Old.evidence ∧
    ({ c8Old with status := "Completed" }).settlement
        = c8Old.settlement ∧
    ({ c8Old with status := "Completed" }).created_idx
        = c8Old.created_idx :=
  set_status_changes_only_status c8Store "CLM-001" "Completed" c8Old
    (by decide)

/-- C10: creating a record under an id already present assigns the new
record a strictly larger creation index than the overwritten record's
(and the fresh timestamp of this creation), so the overwritten claim
moves to the first position of the recency listing even though its id is
unchanged. -/
theorem recreate_assigns_fresh_idx (s : AppState) (hinv : StoreInv s)
    (cid : String) (old : ClaimRecord)
    (hold : dictGet s.claims_db cid = some old)
    (cn cc ct ch cm ds : String) (pr : PipelineResult) (now : Nat) :
    let r' : ClaimRecord :=
      { id := cid, customer_name := cn, customer_contact := cc,
        type := ct, channel := ch, car_model := cm, description := ds,
        status := "Reviewing",
        priority := extract_priority_label pr.triage,
        triage := pr.triage, damage := pr.damage, evidence := pr.evidence,
        settlement := pr.settlement, overview := pr.overview,
        created_at := now, created_idx := s.next_idx + 1 }
    let s' := save_claim_record s cid cn cc ct ch cm ds pr "Reviewing" now
    old.created_idx < r'.created_idx ∧
    r'.created_at = now ∧
    dictGet s'.claims_db cid = some r' ∧
    (get_sorted_claims s').head? = some r' := by
  intro r' s'
  have holdmem : ∃ q ∈ s.claims_db, q.2 = old := by
    unfold dictGet at hold
    cases hf : s.claims_db.find? (fun p => p.1 == cid) with
    | none => rw [hf] at hold; simp at hold
    | some q =>
      rw [hf] at hold
      exact ⟨q, List.mem_of_find?_eq_some hf, by simpa using hold⟩
  obtain ⟨q, hq, hq2⟩ := holdmem
  have hbound : old.created_idx ≤ s.next_idx := hq2 ▸ hinv.2 q hq
  refine ⟨by simp [r']; omega, rfl, dictGet_dictSet_self _ _ _, ?_⟩
  apply sort_head_max
  · exact value_mem_dictSet s.claims_db cid r'
  · intro x hx
    obtain ⟨p, hp, hpx⟩ := List.mem_map.mp hx
    rcases mem_dictSet hp with hpv | hpo
    · left
      rw [← hpx, hpv]
    · right
      rw [← hpx]
      have := hinv.2 p hpo
      simp [r']
      omega

/-- Witness for C10: overwriting the concrete stored claim gives it index
2 (above the old index 1) and moves it to the front of the listing. -/
theorem recreate_assigns_fresh_idx_witness :
    let r' : ClaimRecord :=
      { id := "CLM-001", customer_name := "Ravi", customer_contact := "r",
        type := "Rear-end", channel := "Call Centre", car_model := "Kia",
        description := "new dent", status := "Reviewing",
        priority := extract_priority_label wPR.triage,
        triage := wPR.triage, damage := wPR.damage,
        evidence := wPR.evidence, settlement := wPR.settlement,
        overview := wPR.overview, created_at := 10,
        created_idx := c8Store.next_idx + 1 }
    let s' := save_claim_record c8Store "CLM-001" "Ravi" "r" "Rear-end"
      "Call Centre" "Kia" "new dent" wPR "Reviewing" 10
    c8Old.created_idx < r'.created_idx ∧
    r'.created_at = 10 ∧
    dictGet s'.claims_db "CLM-001" = some r' ∧
    (get_sorted_claims s').head? = some r' :=
  recreate_assigns_fresh_idx c8Store ⟨by decide, by decide⟩ "CLM-001"
    c8Old (by decide) "Ravi" "r" "Rear-end" "Call Centre" "Kia"
    "new dent" wPR 10
